import Mathlib

/-!
Shallow embedding of `src/quality_control.py` (BlackRoad Quality Control).

The program stores two SQLite tables, `checklist_items` and `defects`, and
exposes add / update-status / resolve / list / stats / export operations.
We model the database as explicit state: each table is a `List` of rows kept
in insertion (rowid) order, together with the AUTOINCREMENT counters.
Timestamps (`datetime.now().isoformat()`) are modelled as a `Nat` clock value
passed explicitly to every operation that reads the wall clock; ISO-8601
strings produced by a monotone clock compare like the underlying instants.
SQL behaviours are modelled as follows:

* `INSERT` appends a row and returns `lastrowid` (the AUTOINCREMENT counter);
* `UPDATE ... WHERE id=?` rewrites every row whose `id` matches, and
  `SELECT changes()` reports how many rows matched, so the returned boolean
  is `any (· .id == item_id)`;
* `SELECT ... ORDER BY created_at DESC` sorts with the stable `mergeSort`
  on the key `created_at`, descending;
* `GROUP BY` count maps are modelled as total functions `String → Nat`
  giving the count of rows in each group; a key appears in the SQL result
  exactly when its count is positive.
-/

namespace QualityControl

/-- A stored row of the `checklist_items` table. -/
structure ChecklistRow where
  id : Nat
  title : String
  category : String
  severity : String
  status : String
  notes : String
  created_at : Nat
  updated_at : Nat
deriving DecidableEq, Repr

/-- A stored row of the `defects` table. -/
structure DefectRow where
  id : Nat
  title : String
  description : String
  severity : String
  component : String
  status : String
  assignee : String
  created_at : Nat
  resolved_at : Option Nat
deriving DecidableEq, Repr

/-- The `ChecklistItem` dataclass as passed to `add_checklist_item`
(the `id` field is `None` at that point and is ignored by the INSERT,
so it is omitted here). -/
structure ChecklistItem where
  title : String
  category : String
  severity : String
  status : String
  notes : String
  created_at : Nat
  updated_at : Nat
deriving DecidableEq, Repr

/-- The `Defect` dataclass as passed to `add_defect` (without the `id`). -/
structure Defect where
  title : String
  description : String
  severity : String
  component : String
  status : String
  assignee : String
  created_at : Nat
  resolved_at : Option Nat
deriving DecidableEq, Repr

/-- The database state: both tables in insertion (rowid) order plus the
AUTOINCREMENT counters for the next assigned ids. -/
structure QualityControlDB where
  checklist_items : List ChecklistRow
  defects : List DefectRow
  nextChecklistId : Nat
  nextDefectId : Nat
deriving DecidableEq, Repr

/-- The freshly initialised database: both tables empty, SQLite AUTOINCREMENT
assigns rowids starting from 1. -/
def initialDB : QualityControlDB := ⟨[], [], 1, 1⟩

/-- `add_checklist_item`: INSERT the item's fields, return `lastrowid`
and the new state. -/
def add_checklist_item (db : QualityControlDB) (item : ChecklistItem) :
    Nat × QualityControlDB :=
  let rid := db.nextChecklistId
  (rid,
   { db with
     checklist_items := db.checklist_items ++
       [⟨rid, item.title, item.category, item.severity, item.status,
         item.notes, item.created_at, item.updated_at⟩],
     nextChecklistId := rid + 1 })

/-- `add_defect`: INSERT the defect's fields, return `lastrowid`
and the new state. -/
def add_defect (db : QualityControlDB) (defect : Defect) :
    Nat × QualityControlDB :=
  let rid := db.nextDefectId
  (rid,
   { db with
     defects := db.defects ++
       [⟨rid, defect.title, defect.description, defect.severity,
         defect.component, defect.status, defect.assignee,
         defect.created_at, defect.resolved_at⟩],
     nextDefectId := rid + 1 })

/-- `update_checklist_status`: UPDATE status, notes and `updated_at` (set to
the current time `now`) on every row whose id matches; return
`changes() > 0`, i.e. whether some row matched. -/
def update_checklist_status (db : QualityControlDB) (item_id : Nat)
    (st notes : String) (now : Nat) : Bool × QualityControlDB :=
  (db.checklist_items.any (fun r => r.id == item_id),
   { db with
     checklist_items := db.checklist_items.map (fun r =>
       if r.id = item_id then
         { r with status := st, notes := notes, updated_at := now }
       else r) })

/-- `resolve_defect`: UPDATE status to `"resolved"` and `resolved_at` to the
current time on every row whose id matches; return `changes() > 0`. -/
def resolve_defect (db : QualityControlDB) (defect_id : Nat) (now : Nat) :
    Bool × QualityControlDB :=
  (db.defects.any (fun r => r.id == defect_id),
   { db with
     defects := db.defects.map (fun r =>
       if r.id = defect_id then
         { r with status := "resolved", resolved_at := some now }
       else r) })

/-- Descending comparison on `created_at`, the `ORDER BY created_at DESC`
key of both listing queries. -/
def createdDescC (a b : ChecklistRow) : Bool :=
  decide (b.created_at ≤ a.created_at)

/-- Descending comparison on `created_at` for defect rows. -/
def createdDescD (a b : DefectRow) : Bool :=
  decide (b.created_at ≤ a.created_at)

/-- `list_checklist_items`: the Python guard `if category:` applies the WHERE
clause only when `category` is neither `None` nor the empty string; rows are
returned ordered by `created_at` descending. -/
def list_checklist_items (db : QualityControlDB) (category : Option String) :
    List ChecklistRow :=
  let rows :=
    match category with
    | none => db.checklist_items
    | some c =>
      if c = "" then db.checklist_items
      else db.checklist_items.filter (fun r => r.category == c)
  rows.mergeSort createdDescC

/-- `list_defects`: the Python guard `if status:` applies the WHERE clause
only when `status` is neither `None` nor the empty string; rows are returned
ordered by `created_at` descending. -/
def list_defects (db : QualityControlDB) (status : Option String) :
    List DefectRow :=
  let rows :=
    match status with
    | none => db.defects
    | some s =>
      if s = "" then db.defects
      else db.defects.filter (fun r => r.status == s)
  rows.mergeSort createdDescD

/-- The result of `get_stats`: two GROUP BY count maps, modelled as total
count functions (a key is present in the SQL map iff its count is positive). -/
structure Stats where
  checklist : String → Nat
  open_defects_by_severity : String → Nat

/-- `get_stats`: checklist counts grouped by status over all rows, and defect
counts grouped by severity over rows with `status = 'open'` only. -/
def get_stats (db : QualityControlDB) : Stats :=
  ⟨fun s => (db.checklist_items.filter (fun r => r.status == s)).length,
   fun sev => (db.defects.filter
     (fun d => d.status == "open" && d.severity == sev)).length⟩

/-- The export document produced by `export_json`: its top-level keys are
exactly `checklist_items`, `defects`, `stats` and `exported_at`. -/
structure ExportDoc where
  checklist_items : List ChecklistRow
  defects : List DefectRow
  stats : Stats
  exported_at : Nat

/-- `export_json`: the unfiltered listings, the current stats and the export
timestamp, combined into one document. -/
def export_json (db : QualityControlDB) (now : Nat) : ExportDoc :=
  ⟨list_checklist_items db none, list_defects db none, get_stats db, now⟩

/-- Runs a sequence of `add_checklist_item` calls, collecting the returned
ids in call order together with the final state. -/
def runAdds : QualityControlDB → List ChecklistItem → List Nat × QualityControlDB
  | db, [] => ([], db)
  | db, item :: items =>
    let r := add_checklist_item db item
    let rest := runAdds r.2 items
    (r.1 :: rest.1, rest.2)

/-- An insertion call on one of the two stores. -/
inductive AddEvent where
  | addItem : ChecklistItem → AddEvent
  | addDefect : Defect → AddEvent
deriving DecidableEq, Repr

/-- Runs an interleaved sequence of `add_checklist_item` / `add_defect`
calls, collecting the ids returned per table (in call order) and the final
state. -/
def runEvents : QualityControlDB → List AddEvent → (List Nat × List Nat) × QualityControlDB
  | db, [] => (([], []), db)
  | db, AddEvent.addItem item :: es =>
    let r := add_checklist_item db item
    let rest := runEvents r.2 es
    ((r.1 :: rest.1.1, rest.1.2), rest.2)
  | db, AddEvent.addDefect d :: es =>
    let r := add_defect db d
    let rest := runEvents r.2 es
    ((rest.1.1, r.1 :: rest.1.2), rest.2)

/-- A checklist item as the command layer builds it (`cmd_add` with defaults),
with a chosen status and creation instant. -/
def mkItem (st cat : String) (t : Nat) : ChecklistItem :=
  ⟨"task", cat, "medium", st, "", t, t⟩

/-- A defect as the command layer builds it (`cmd_add` with defaults), with a
chosen severity and creation instant; dataclass default status is `"open"`. -/
def mkDefect (sev : String) (t : Nat) : Defect :=
  ⟨"bug", "", sev, "general", "open", "", t, none⟩

/-- The database of the C1 scenario: three checklist items with statuses
pending, pending, passed; three open defects with severities high, high,
critical; then the critical one (id 3) resolved. -/
def c1db : QualityControlDB :=
  let d1 := (add_checklist_item initialDB (mkItem "pending" "general" 1)).2
  let d2 := (add_checklist_item d1 (mkItem "pending" "general" 2)).2
  let d3 := (add_checklist_item d2 (mkItem "passed" "general" 3)).2
  let d4 := (add_defect d3 (mkDefect "high" 4)).2
  let d5 := (add_defect d4 (mkDefect "high" 5)).2
  let d6 := (add_defect d5 (mkDefect "critical" 6)).2
  (resolve_defect d6 3 7).2

/-- A one-item database whose single checklist row has category `"general"`:
the C2 counterexample state. -/
def c2db : QualityControlDB :=
  (add_checklist_item initialDB (mkItem "pending" "general" 1)).2

/-- A small database used as a concrete witness input: one checklist item
(id 1, added at instant 1) and one open defect (id 1, added at instant 2). -/
def wdb : QualityControlDB :=
  let d1 := (add_checklist_item initialDB (mkItem "pending" "general" 1)).2
  (add_defect d1 (mkDefect "high" 2)).2

/-- Two decompositions of one list into a `q`-false block followed by a
`q`-true block coincide. -/
theorem split_eq_of_forall (q : α → Bool) :
    ∀ {xs : List α} {xs' ys ys' : List α},
      xs ++ ys = xs' ++ ys' →
      (∀ b ∈ xs, q b = false) → (∀ b ∈ ys, q b = true) →
      (∀ b ∈ xs', q b = false) → (∀ b ∈ ys', q b = true) →
      xs = xs' ∧ ys = ys'
  | [], [], ys, ys', h, _, _, _, _ => ⟨rfl, by simpa using h⟩
  | [], a :: xs', ys, ys', h, _, hy, hx', _ => by
    simp only [List.nil_append, List.cons_append] at h
    have h1 : q a = true := hy a (h ▸ List.mem_cons_self a _)
    have h2 : q a = false := hx' a (List.mem_cons_self a _)
    simp [h1] at h2
  | a :: xs, [], ys, ys', h, hx, _, _, hy' => by
    simp only [List.cons_append, List.nil_append] at h
    have h1 : q a = true := hy' a (h ▸ List.mem_cons_self a _)
    have h2 : q a = false := hx a (List.mem_cons_self a _)
    simp [h1] at h2
  | a :: xs, a' :: xs', ys, ys', h, hx, hy, hx', hy' => by
    simp only [List.cons_append, List.cons.injEq] at h
    obtain ⟨rfl, htl⟩ := h
    obtain ⟨e1, e2⟩ := split_eq_of_forall q htl
      (fun b hb => hx b (List.mem_cons_of_mem _ hb)) hy
      (fun b hb => hx' b (List.mem_cons_of_mem _ hb)) hy'
    exact ⟨by rw [e1], e2⟩

/-- Stability of `mergeSort` in equational form: filtering commutes with
sorting by a transitive total comparison. -/
theorem filter_mergeSort_comm {α : Type} (le : α → α → Bool)
    (trans : ∀ (a b c : α), le a b → le b c → le a c)
    (total : ∀ (a b : α), le a b || le b a)
    (p : α → Bool) :
    ∀ l : List α, (l.mergeSort le).filter p = (l.filter p).mergeSort le
  | [] => by simp
  | a :: l => by
    have ih := filter_mergeSort_comm le trans total p l
    obtain ⟨l₁, l₂, h₁, h₂, h₃⟩ := List.mergeSort_cons trans total a l
    by_cases hpa : p a = true
    · have hfcons : (a :: l).filter p = a :: l.filter p := by simp [hpa]
      obtain ⟨m₁, m₂, g₁, g₂, g₃⟩ := List.mergeSort_cons trans total a (l.filter p)
      have hm : m₁ ++ m₂ = l₁.filter p ++ l₂.filter p := by
        rw [← g₂, ← ih, h₂, List.filter_append]
      have s₁ := List.sorted_mergeSort trans total (a :: l)
      rw [h₁] at s₁
      have s₂ := List.sorted_mergeSort trans total (a :: l.filter p)
      rw [g₁] at s₂
      have ha₂ : ∀ b ∈ l₂, le a b := fun b hb =>
        List.rel_of_pairwise_cons (List.pairwise_append.mp s₁).2.1 hb
      have hm₂ : ∀ b ∈ m₂, le a b := fun b hb =>
        List.rel_of_pairwise_cons (List.pairwise_append.mp s₂).2.1 hb
      have hl₁ : ∀ b ∈ l₁.filter p, le a b = false := fun b hb => by
        have := h₃ b (List.mem_of_mem_filter hb)
        simpa using this
      have hm₁ : ∀ b ∈ m₁, le a b = false := fun b hb => by
        have := g₃ b hb
        simpa using this
      obtain ⟨e1, e2⟩ := split_eq_of_forall (le a) hm hm₁ hm₂ hl₁
        (fun b hb => ha₂ b (List.mem_of_mem_filter hb))
      rw [h₁, hfcons, g₁, List.filter_append, List.filter_cons, if_pos hpa,
        e1, e2]
    · have hpa' : p a = false := by simpa using hpa
      have hfcons : (a :: l).filter p = l.filter p := by simp [hpa']
      rw [h₁, hfcons, List.filter_append, List.filter_cons, if_neg (by simp [hpa']),
        ← List.filter_append, ← h₂, ih]

theorem createdDescC_trans (a b c : ChecklistRow) :
    createdDescC a b → createdDescC b c → createdDescC a c := by
  simp only [createdDescC, decide_eq_true_eq]
  omega

theorem createdDescC_total (a b : ChecklistRow) :
    createdDescC a b || createdDescC b a := by
  simp only [createdDescC, Bool.or_eq_true, decide_eq_true_eq]
  omega

theorem createdDescD_trans (a b c : DefectRow) :
    createdDescD a b → createdDescD b c → createdDescD a c := by
  simp only [createdDescD, decide_eq_true_eq]
  omega

theorem createdDescD_total (a b : DefectRow) :
    createdDescD a b || createdDescD b a := by
  simp only [createdDescD, Bool.or_eq_true, decide_eq_true_eq]
  omega

theorem runAdds_checklist_length :
    ∀ (items : List ChecklistItem) (db : QualityControlDB),
      ((runAdds db items).2).checklist_items.length
        = db.checklist_items.length + items.length
  | [], db => by simp [runAdds]
  | item :: items, db => by
    have ih := runAdds_checklist_length items (add_checklist_item db item).2
    simp only [runAdds, add_checklist_item] at ih ⊢
    simp only [ih, List.length_append, List.length_cons, List.length_nil]
    omega

theorem runEvents_item_ids_lb :
    ∀ (es : List AddEvent) (db : QualityControlDB) (x : Nat),
      x ∈ (runEvents db es).1.1 → db.nextChecklistId ≤ x
  | [], db, x => by simp [runEvents]
  | AddEvent.addItem item :: es, db, x => by
    intro hx
    simp only [runEvents, add_checklist_item, List.mem_cons] at hx
    rcases hx with rfl | hx
    · exact Nat.le_refl _
    · have := runEvents_item_ids_lb es _ x hx
      simp only at this
      omega
  | AddEvent.addDefect d :: es, db, x => by
    intro hx
    simp only [runEvents, add_defect] at hx
    have := runEvents_item_ids_lb es _ x hx
    simpa using this

theorem runEvents_defect_ids_lb :
    ∀ (es : List AddEvent) (db : QualityControlDB) (x : Nat),
      x ∈ (runEvents db es).1.2 → db.nextDefectId ≤ x
  | [], db, x => by simp [runEvents]
  | AddEvent.addItem item :: es, db, x => by
    intro hx
    simp only [runEvents, add_checklist_item] at hx
    have := runEvents_defect_ids_lb es _ x hx
    simpa using this
  | AddEvent.addDefect d :: es, db, x => by
    intro hx
    simp only [runEvents, add_defect, List.mem_cons] at hx
    rcases hx with rfl | hx
    · exact Nat.le_refl _
    · have := runEvents_defect_ids_lb es _ x hx
      simp only at this
      omega

theorem runEvents_item_ids_sorted :
    ∀ (es : List AddEvent) (db : QualityControlDB),
      ((runEvents db es).1.1).Pairwise (· < ·)
  | [], db => by simp [runEvents]
  | AddEvent.addItem item :: es, db => by
    simp only [runEvents, add_checklist_item]
    refine List.Pairwise.cons ?_ (runEvents_item_ids_sorted es _)
    intro x hx
    have := runEvents_item_ids_lb es _ x hx
    simp only at this
    omega
  | AddEvent.addDefect d :: es, db => by
    simp only [runEvents, add_defect]
    exact runEvents_item_ids_sorted es _

theorem runEvents_defect_ids_sorted :
    ∀ (es : List AddEvent) (db : QualityControlDB),
      ((runEvents db es).1.2).Pairwise (· < ·)
  | [], db => by simp [runEvents]
  | AddEvent.addItem item :: es, db => by
    simp only [runEvents, add_checklist_item]
    exact runEvents_defect_ids_sorted es _
  | AddEvent.addDefect d :: es, db => by
    simp only [runEvents, add_defect]
    refine List.Pairwise.cons ?_ (runEvents_defect_ids_sorted es _)
    intro x hx
    have := runEvents_defect_ids_lb es _ x hx
    simp only at this
    omega

theorem c1db_checklist_rows : c1db.checklist_items =
    [⟨1, "task", "general", "medium", "pending", "", 1, 1⟩,
     ⟨2, "task", "general", "medium", "pending", "", 2, 2⟩,
     ⟨3, "task", "general", "medium", "passed", "", 3, 3⟩] := rfl

theorem c1db_defect_rows : c1db.defects =
    [⟨1, "bug", "", "high", "general", "open", "", 4, none⟩,
     ⟨2, "bug", "", "high", "general", "open", "", 5, none⟩,
     ⟨3, "bug", "", "critical", "general", "resolved", "", 6, some 7⟩] := rfl

/-- C1: `get_stats` groups checklist counts by status over all checklist
rows and open-defect counts by severity over rows with status exactly
`"open"`; on the scenario database (3 checklist items pending/pending/passed,
2 open high defects, 1 resolved critical defect) the checklist map is
exactly (pending ↦ 2, passed ↦ 1, all else 0) and the open-defect map is
exactly (high ↦ 2, all else 0), the resolved critical defect excluded. -/
theorem get_stats_grouped_counts_c1 :
    (get_stats c1db).checklist
        = (fun s => if s = "pending" then 2 else if s = "passed" then 1 else 0)
    ∧ (get_stats c1db).open_defects_by_severity
        = (fun s => if s = "high" then 2 else 0) := by
  constructor
  · funext s
    by_cases h1 : s = "pending"
    · subst h1; rfl
    · by_cases h2 : s = "passed"
      · subst h2; rfl
      · have e1 : ("pending" == s) = false := beq_eq_false_iff_ne.mpr (Ne.symm h1)
        have e2 : ("passed" == s) = false := beq_eq_false_iff_ne.mpr (Ne.symm h2)
        show (c1db.checklist_items.filter (fun r => r.status == s)).length
          = if s = "pending" then 2 else if s = "passed" then 1 else 0
        rw [c1db_checklist_rows]
        simp [e1, e2, h1, h2]
  · funext s
    by_cases h1 : s = "high"
    · subst h1; rfl
    · have e1 : ("high" == s) = false := beq_eq_false_iff_ne.mpr (Ne.symm h1)
      have e3 : ("resolved" == "open") = false := by decide
      show (c1db.defects.filter
          (fun d => d.status == "open" && d.severity == s)).length
        = if s = "high" then 2 else 0
      rw [c1db_defect_rows]
      simp [e1, e3, h1]

/-- C3: updating the status of an id that matches no checklist row returns
`false` and leaves the entire database state (both tables and both
counters) unchanged. -/
theorem update_checklist_status_nonexistent_c3
    (db : QualityControlDB) (item_id : Nat) (st notes : String) (now : Nat)
    (h : ∀ r ∈ db.checklist_items, r.id ≠ item_id) :
    update_checklist_status db item_id st notes now = (false, db) := by
  have h1 : db.checklist_items.any (fun r => r.id == item_id) = false := by
    simp only [List.any_eq_false]
    intro r hr
    simpa using h r hr
  have h2 : db.checklist_items.map (fun r =>
      if r.id = item_id then
        { r with status := st, notes := notes, updated_at := now }
      else r) = db.checklist_items := by
    conv_rhs => rw [← List.map_id db.checklist_items]
    apply List.map_congr_left
    intro r hr
    rw [if_neg (h r hr)]
    rfl
  unfold update_checklist_status
  rw [h1, h2]

theorem update_checklist_status_nonexistent_c3_witness :
    (∀ r ∈ wdb.checklist_items, r.id ≠ 5)
    ∧ update_checklist_status wdb 5 "passed" "ok" 9 = (false, wdb) :=
  ⟨by decide,
   update_checklist_status_nonexistent_c3 wdb 5 "passed" "ok" 9 (by decide)⟩

/-- C6: over any interleaved sequence of `add_checklist_item` and
`add_defect` calls starting from the fresh database, the ids returned for
each table are strictly increasing in call order, hence unique within the
table. -/
theorem add_ids_strictly_increasing_c6 (es : List AddEvent) :
    ((runEvents initialDB es).1.1.Pairwise (· < ·))
    ∧ ((runEvents initialDB es).1.1.Nodup)
    ∧ ((runEvents initialDB es).1.2.Pairwise (· < ·))
    ∧ ((runEvents initialDB es).1.2.Nodup) :=
  ⟨runEvents_item_ids_sorted es initialDB,
   List.Pairwise.imp (fun h => Nat.ne_of_lt h) (runEvents_item_ids_sorted es initialDB),
   runEvents_defect_ids_sorted es initialDB,
   List.Pairwise.imp (fun h => Nat.ne_of_lt h) (runEvents_defect_ids_sorted es initialDB)⟩

/-- C7: the export document has exactly the four top-level fields
`checklist_items`, `defects`, `stats`, `exported_at` (the fields of
`ExportDoc`), and they hold the unfiltered listings, the current stats and
the export timestamp computed on the same database state. -/
theorem export_json_structure_c7 (db : QualityControlDB) (now : Nat) :
    (export_json db now).checklist_items = list_checklist_items db none
    ∧ (export_json db now).defects = list_defects db none
    ∧ (export_json db now).stats = get_stats db
    ∧ (export_json db now).exported_at = now :=
  ⟨rfl, rfl, rfl, rfl⟩

/-- C8: for every database state, recomputing the grouped counts from the
exported `checklist_items` array (count by status) and `defects` array
(count by severity over entries with status `"open"`) gives exactly the
count maps in the exported `stats`. -/
theorem export_round_trip_c8 (db : QualityControlDB) (now : Nat) (s : String) :
    (((export_json db now).checklist_items.filter
        (fun r => r.status == s)).length
      = (export_json db now).stats.checklist s)
    ∧ (((export_json db now).defects.filter
        (fun d => d.status == "open" && d.severity == s)).length
      = (export_json db now).stats.open_defects_by_severity s) := by
  constructor
  · have h := (List.mergeSort_perm db.checklist_items createdDescC).filter
      (fun r => r.status == s)
    simpa [export_json, list_checklist_items, get_stats] using h.length_eq
  · have h := (List.mergeSort_perm db.defects createdDescD).filter
      (fun d => d.status == "open" && d.severity == s)
    simpa [export_json, list_defects, get_stats] using h.length_eq

/-- C10: passing the empty string as the category filter of
`list_checklist_items`, or as the status filter of `list_defects`, is the
same as passing no filter, and the result covers every row of the table. -/
theorem empty_string_filter_ignored_c10 (db : QualityControlDB) :
    list_checklist_items db (some "") = list_checklist_items db none
    ∧ list_defects db (some "") = list_defects db none
    ∧ List.Perm (list_checklist_items db (some "")) db.checklist_items
    ∧ List.Perm (list_defects db (some "")) db.defects :=
  ⟨rfl, rfl, List.mergeSort_perm _ _, List.mergeSort_perm _ _⟩

/-- C2 counterexample: on a database whose single checklist item has
category `"general"`, supplying the category argument `""` does not return
the subset of items whose category equals `""` (which is empty): the
Python truthiness guard skips the WHERE clause and the item is returned. -/
theorem list_items_category_c2_counterexample :
    list_checklist_items c2db (some "")
      ≠ (list_checklist_items c2db none).filter (fun r => r.category == "") := by
  have hrows : c2db.checklist_items
      = [⟨1, "task", "general", "medium", "pending", "", 1, 1⟩] := rfl
  have h1 : list_checklist_items c2db (some "")
      = [⟨1, "task", "general", "medium", "pending", "", 1, 1⟩] := by
    show c2db.checklist_items.mergeSort createdDescC = _
    rw [hrows, List.mergeSort_singleton]
  have h2 : list_checklist_items c2db none
      = [⟨1, "task", "general", "medium", "pending", "", 1, 1⟩] := by
    show c2db.checklist_items.mergeSort createdDescC = _
    rw [hrows, List.mergeSort_singleton]
  rw [h1, h2]
  decide

/-- C2 (amended): after any sequence of N `add_checklist_item` calls on a
fresh store, the unfiltered listing has exactly N items and is ordered by
`created_at` descending; for every supplied non-empty category argument the
listing equals the subset of the unfiltered listing whose category matches,
in the same order, and it is the empty list when nothing matches. -/
theorem list_items_after_adds_c2 (items : List ChecklistItem) (c : String)
    (hc : c ≠ "") :
    (list_checklist_items (runAdds initialDB items).2 none).length = items.length
    ∧ (list_checklist_items (runAdds initialDB items).2 none).Pairwise
        (fun a b => b.created_at ≤ a.created_at)
    ∧ list_checklist_items (runAdds initialDB items).2 (some c)
        = (list_checklist_items (runAdds initialDB items).2 none).filter
            (fun r => r.category == c)
    ∧ ((∀ r ∈ (runAdds initialDB items).2.checklist_items, r.category ≠ c) →
        list_checklist_items (runAdds initialDB items).2 (some c) = []) := by
  refine ⟨?_, ?_, ?_, ?_⟩
  · show ((runAdds initialDB items).2.checklist_items.mergeSort createdDescC).length
      = items.length
    rw [List.length_mergeSort, runAdds_checklist_length]
    simp [initialDB]
  · exact List.Pairwise.imp (fun h => of_decide_eq_true h)
      (List.sorted_mergeSort createdDescC_trans createdDescC_total
        (runAdds initialDB items).2.checklist_items)
  · show (if c = "" then (runAdds initialDB items).2.checklist_items
        else (runAdds initialDB items).2.checklist_items.filter
          (fun r => r.category == c)).mergeSort createdDescC
      = ((runAdds initialDB items).2.checklist_items.mergeSort
          createdDescC).filter (fun r => r.category == c)
    rw [if_neg hc]
    exact (filter_mergeSort_comm createdDescC createdDescC_trans
      createdDescC_total _ _).symm
  · intro h
    show (if c = "" then (runAdds initialDB items).2.checklist_items
        else (runAdds initialDB items).2.checklist_items.filter
          (fun r => r.category == c)).mergeSort createdDescC = []
    rw [if_neg hc]
    have hnil : (runAdds initialDB items).2.checklist_items.filter
        (fun r => r.category == c) = [] := by
      rw [List.filter_eq_nil_iff]
      intro r hr
      simpa using h r hr
    rw [hnil]
    exact List.mergeSort_nil

theorem list_items_after_adds_c2_witness :
    (("general" : String) ≠ "")
    ∧ (list_checklist_items
        (runAdds initialDB
          [mkItem "pending" "general" 1, mkItem "passed" "other" 2]).2
        none).length
      = [mkItem "pending" "general" 1, mkItem "passed" "other" 2].length :=
  ⟨by decide,
   (list_items_after_adds_c2
     [mkItem "pending" "general" 1, mkItem "passed" "other" 2]
     "general" (by decide)).1⟩

/-- C4: updating the status of an existing checklist id returns `true`; in
the subsequent unfiltered listing the matching item carries the new status,
the new notes and `updated_at = now`, which is strictly later than the
pre-call stamp whenever the clock has advanced past it. -/
theorem update_checklist_status_existing_c4
    (db : QualityControlDB) (item_id : Nat) (st notes : String) (now : Nat)
    (hex : ∃ r ∈ db.checklist_items, r.id = item_id)
    (hnow : ∀ r ∈ db.checklist_items, r.id = item_id → r.updated_at < now) :
    (update_checklist_status db item_id st notes now).1 = true
    ∧ (∃ r ∈ list_checklist_items
          (update_checklist_status db item_id st notes now).2 none,
        r.id = item_id ∧ r.status = st ∧ r.notes = notes ∧ r.updated_at = now)
    ∧ (∀ r ∈ list_checklist_items
          (update_checklist_status db item_id st notes now).2 none,
        r.id = item_id → r.status = st ∧ r.notes = notes ∧ r.updated_at = now)
    ∧ (∀ r ∈ db.checklist_items,
        ∀ r' ∈ list_checklist_items
          (update_checklist_status db item_id st notes now).2 none,
        r.id = item_id → r'.id = item_id → r.updated_at < r'.updated_at) := by
  have hmem : ∀ r, r ∈ list_checklist_items
        (update_checklist_status db item_id st notes now).2 none
      ↔ r ∈ db.checklist_items.map (fun r =>
          if r.id = item_id then
            { r with status := st, notes := notes, updated_at := now }
          else r) := fun r => List.mem_mergeSort
  have hall : ∀ r ∈ list_checklist_items
        (update_checklist_status db item_id st notes now).2 none,
      r.id = item_id → r.status = st ∧ r.notes = notes ∧ r.updated_at = now := by
    intro r hr hid
    rw [hmem] at hr
    obtain ⟨s₀, hs₀, rfl⟩ := List.mem_map.mp hr
    by_cases h : s₀.id = item_id
    · simp [h]
    · simp only [if_neg h] at hid
      exact absurd hid h
  obtain ⟨r₀, hr₀, hid₀⟩ := hex
  refine ⟨?_, ?_, hall, ?_⟩
  · show db.checklist_items.any (fun r => r.id == item_id) = true
    rw [List.any_eq_true]
    exact ⟨r₀, hr₀, by simpa using hid₀⟩
  · refine ⟨{ r₀ with status := st, notes := notes, updated_at := now },
      ?_, hid₀, rfl, rfl, rfl⟩
    rw [hmem]
    have he : (if r₀.id = item_id then
        { r₀ with status := st, notes := notes, updated_at := now }
      else r₀) = { r₀ with status := st, notes := notes, updated_at := now } :=
      if_pos hid₀
    exact he ▸ List.mem_map_of_mem _ hr₀
  · intro r hr r' hr' hid hid'
    have h1 := hnow r hr hid
    have h2 := (hall r' hr' hid').2.2
    rw [h2]
    exact h1

theorem update_checklist_status_existing_c4_witness :
    (∃ r ∈ wdb.checklist_items, r.id = 1)
    ∧ (update_checklist_status wdb 1 "passed" "ok" 5).1 = true :=
  ⟨by decide,
   (update_checklist_status_existing_c4 wdb 1 "passed" "ok" 5
     (by decide) (by decide)).1⟩

/-- C5: `resolve_defect` returns `true` exactly when a defect row with the
given id exists; it stamps every matching row with status `"resolved"` and
`resolved_at = some now`; resolving the same id again still returns `true`
and overwrites `resolved_at` with the newer timestamp. -/
theorem resolve_defect_c5 (db : QualityControlDB) (defect_id : Nat)
    (now now₂ : Nat) (h₂ : now < now₂) :
    ((resolve_defect db defect_id now).1 = true
      ↔ ∃ r ∈ db.defects, r.id = defect_id)
    ∧ (∀ r ∈ (resolve_defect db defect_id now).2.defects, r.id = defect_id →
        r.status = "resolved" ∧ r.resolved_at = some now)
    ∧ ((resolve_defect db defect_id now).1 = true →
        (resolve_defect (resolve_defect db defect_id now).2 defect_id now₂).1
          = true)
    ∧ (∀ r ∈ (resolve_defect (resolve_defect db defect_id now).2 defect_id
          now₂).2.defects,
        r.id = defect_id →
          r.status = "resolved" ∧ r.resolved_at = some now₂
          ∧ ∀ t, r.resolved_at = some t → now < t) := by
  have hupd : ∀ (d : QualityControlDB) (t : Nat),
      ∀ r ∈ (resolve_defect d defect_id t).2.defects, r.id = defect_id →
        r.status = "resolved" ∧ r.resolved_at = some t := by
    intro d t r hr hid
    simp only [resolve_defect] at hr
    obtain ⟨s₀, hs₀, rfl⟩ := List.mem_map.mp hr
    by_cases h : s₀.id = defect_id
    · simp [h]
    · simp only [if_neg h] at hid
      exact absurd hid h
  refine ⟨?_, hupd db now, ?_, ?_⟩
  · simp [resolve_defect]
  · intro h
    simp only [resolve_defect, List.any_eq_true, List.mem_map] at h ⊢
    obtain ⟨r, hr, hid⟩ := h
    have hc : r.id = defect_id := by simpa using hid
    refine ⟨_, ⟨r, hr, rfl⟩, ?_⟩
    simp [hc]
  · intro r hr hid
    obtain ⟨h1, h2⟩ := hupd _ now₂ r hr hid
    refine ⟨h1, h2, ?_⟩
    intro t ht
    rw [h2] at ht
    have h3 := Option.some.inj ht
    omega

theorem resolve_defect_c5_witness :
    (3 : Nat) < 4
    ∧ ((resolve_defect wdb 1 3).1 = true ↔ ∃ r ∈ wdb.defects, r.id = 1) :=
  ⟨by decide, (resolve_defect_c5 wdb 1 3 4 (by decide)).1⟩

/-- C9: no exposed operation rewrites a stored `created_at`:
`update_checklist_status` touches only status, notes and `updated_at` of the
rows matching its id (all other fields and all other rows unchanged, the
defects table and the counters untouched); `resolve_defect` touches only
status and `resolved_at` of the rows matching its id; the add operations
leave every pre-existing row in place. -/
theorem frame_conditions_c9 (db : QualityControlDB)
    (item_id defect_id : Nat) (st notes : String) (now now' : Nat)
    (item : ChecklistItem) (d : Defect) :
    ((update_checklist_status db item_id st notes now).2.defects = db.defects)
    ∧ ((update_checklist_status db item_id st notes now).2.nextChecklistId
        = db.nextChecklistId)
    ∧ List.Forall₂ (fun old new =>
        new.id = old.id ∧ new.title = old.title ∧ new.category = old.category
        ∧ new.severity = old.severity ∧ new.created_at = old.created_at
        ∧ (old.id ≠ item_id → new = old)
        ∧ (old.id = item_id →
            new.status = st ∧ new.notes = notes ∧ new.updated_at = now))
        db.checklist_items
        (update_checklist_status db item_id st notes now).2.checklist_items
    ∧ ((resolve_defect db defect_id now').2.checklist_items
        = db.checklist_items)
    ∧ List.Forall₂ (fun old new =>
        new.id = old.id ∧ new.title = old.title
        ∧ new.description = old.description ∧ new.severity = old.severity
        ∧ new.component = old.component ∧ new.assignee = old.assignee
        ∧ new.created_at = old.created_at
        ∧ (old.id ≠ defect_id → new = old)
        ∧ (old.id = defect_id →
            new.status = "resolved" ∧ new.resolved_at = some now'))
        db.defects (resolve_defect db defect_id now').2.defects
    ∧ ((add_checklist_item db item).2.checklist_items.take
        db.checklist_items.length = db.checklist_items)
    ∧ ((add_defect db d).2.defects.take db.defects.length = db.defects) := by
  refine ⟨rfl, rfl, ?_, rfl, ?_, ?_, ?_⟩
  · show List.Forall₂ _ db.checklist_items (db.checklist_items.map (fun r =>
      if r.id = item_id then
        { r with status := st, notes := notes, updated_at := now }
      else r))
    rw [List.forall₂_map_right_iff, List.forall₂_same]
    intro r hr
    by_cases h : r.id = item_id
    · simp [h]
    · simp [h]
  · show List.Forall₂ _ db.defects (db.defects.map (fun r =>
      if r.id = defect_id then
        { r with status := "resolved", resolved_at := some now' }
      else r))
    rw [List.forall₂_map_right_iff, List.forall₂_same]
    intro r hr
    by_cases h : r.id = defect_id
    · simp [h]
    · simp [h]
  · show (db.checklist_items ++
      [ChecklistRow.mk db.nextChecklistId item.title item.category
        item.severity item.status item.notes item.created_at
        item.updated_at]).take db.checklist_items.length
      = db.checklist_items
    exact List.take_left _ _
  · show (db.defects ++
      [DefectRow.mk db.nextDefectId d.title d.description d.severity
        d.component d.status d.assignee d.created_at d.resolved_at]).take
        db.defects.length = db.defects
    exact List.take_left _ _

end QualityControl
